import Mathlib

/-!
# Verification of the json_exporter collection engine

Shallow embedding of `exporter/collector.go` (package `exporter`) of the
json_exporter repository.  The collection engine turns a JSON payload and a
list of metric descriptors into a sequence of metric observations.

Modelling conventions:

* Go strings are byte sequences manipulated only through the `strings`
  package; we model them as Lean `String`s with character-wise operations
  (identical for the ASCII data the collector's path syntax uses).
* A `[]byte` JSON buffer is represented by the `JsonValue` it parses to,
  `none` standing for bytes that `json.Unmarshal` rejects.
* The external k8s.io jsonpath library (`jsonpath.New/Parse/Execute` plus
  `UnquoteExtend`) and the external `SanitizeValue` helper are collaborators
  outside the collector; they enter the model as explicit function
  parameters (`PathEval`, `sanitize`), so every theorem about the engine
  holds for an arbitrary path evaluator and value normalizer.
* A Go runtime panic is modelled by an explicit escape: functions that can
  panic return an `Option`, `none` marking the panic, and the collection
  run records in `CollectResult.panicked` whether it crashed; observations
  already sent on the channel before the panic remain in `emitted`.
-/

deriving instance DecidableEq for Except

namespace JsonExporter

/-- `strings.ReplaceAll(s, " ", "")` — the only `ReplaceAll` call in the
    source: it removes every space character of the path. -/
def replaceAllSpaces (s : String) : String :=
  ⟨s.toList.filter (fun c => c ≠ ' ')⟩

/-- `strings.ToLower`, character-wise. -/
def goToLower (s : String) : String :=
  ⟨s.toList.map Char.toLower⟩

/-- `strings.Contains(s, "$")` — the source only ever tests for the single
    byte `"$"`. -/
def containsDollar (s : String) : Bool :=
  s.toList.contains '$'

/-- The Go slice expression `s[0:n]` (first `n` bytes; first `n` characters
    for ASCII content).  In Go this expression panics when `len(s) < n`;
    the caller below checks the length before using it. -/
def takeChars (s : String) (n : Nat) : String :=
  ⟨s.toList.take n⟩

/-- Go `len(s)` (byte length; character count for ASCII content). -/
def goLen (s : String) : Nat :=
  s.toList.length

/-- A parsed JSON value (the shape of an `encoding/json` `interface{}`). -/
inductive JsonValue where
  | null
  | bool (b : Bool)
  | num (q : Rat)
  | str (s : String)
  | arr (elements : List JsonValue)
  | obj (fields : List (String × JsonValue))

/-- A `[]byte` buffer holding JSON, represented by the value it parses to;
    `none` stands for bytes on which `json.Unmarshal` fails. -/
abbrev JsonDoc := Option JsonValue

/-- Identity of a `*prometheus.Desc`.  Go distinguishes descriptors by
    pointer: the package-level `jsonExporterStatusDesc` is one fixed pointer,
    and every configured metric's `Desc` is a fresh pointer built by
    `prometheus.NewDesc` at configuration-load time, hence never equal to the
    status pointer. -/
inductive MetricDesc where
  | statusDesc
  | configDesc (fqName : String)
deriving DecidableEq, Repr

/-- `prometheus.ValueType` as used by the collector. -/
inductive PromValueType where
  | counterValue
  | gaugeValue
  | untypedValue
deriving DecidableEq, Repr

/-- `config.ScrapeType`: an open string-like tag with the two recognized
    values `config.ValueScrape` and `config.ObjectScrape`; the collector's
    `switch` has a `default` arm for anything else. -/
inductive ScrapeType where
  | valueScrape
  | objectScrape
  | other (tag : String)
deriving DecidableEq, Repr

/-- `config.ValueConverterType`: a map from value path to a map from
    (lowercased) extracted value to its replacement, modelled as nested
    association lists.  The surrounding `Option` distinguishes a nil map. -/
def ValueConverterType := List (String × List (String × String))
deriving DecidableEq, Repr

/-- The `JSONMetric` struct of `collector.go`.  The Go field `Type` is
    spelled `Type'` because `Type` is a Lean keyword. -/
structure JSONMetric where
  Desc : MetricDesc
  Type' : ScrapeType
  KeyJSONPath : String
  ValueJSONPath : String
  LabelsJSONPaths : List String
  ValueType : PromValueType
  ValueConverter : Option ValueConverterType
  EpochTimestampJSONPath : String
deriving DecidableEq, Repr

/-- The `JSONMetricCollector` struct.  The logger only produces diagnostic
    output and never influences the emitted metrics; it is carried as an
    opaque string so that logger-independence can be stated. -/
structure JSONMetricCollector where
  JSONMetrics : List JSONMetric
  Data : JsonDoc
  Logger : String

/-- One metric sent on the channel by `prometheus.MustNewConstMetric`:
    descriptor, value type, float value and ordered label values.
    `MustNewConstMetric` never attaches an explicit timestamp — a metric
    only carries one when wrapped by `prometheus.NewMetricWithTimestamp`,
    which `collector.go` never calls — so `timestamp` records the optional
    explicit Unix timestamp of the emitted metric (`none` = the exposition
    layer will stamp it with "now"). -/
structure Observation where
  desc : MetricDesc
  valueType : PromValueType
  value : Rat
  labelValues : List String
  timestamp : Option Int
deriving DecidableEq, Repr

/-- Outcome of one `Collect` run: the metrics sent on the channel, in
    order, and whether the run ended in a runtime panic (observations sent
    before the panic were already received). -/
structure CollectResult where
  emitted : List Observation
  panicked : Bool

/-- The external k8s.io jsonpath library as used by `extractValue`:
    `evalText` is parse + execute + `UnquoteExtend` with JSON output
    disabled (a textual scalar result); `evalJson` is the same pipeline
    with `EnableJSONOutput(true)`, composed with the re-parse of its JSON
    rendering (the rendering round-trip is lossless).  An error of any of
    the stages is collapsed to `Except.error ()`, exactly as the collector
    treats every sub-reason uniformly. -/
structure PathEval where
  evalText : JsonValue → String → Except Unit String
  evalJson : JsonValue → String → Except Unit JsonValue

/-- `extractValue(logger, data, path, false)`: unmarshal the buffer (error
    if the bytes are not JSON), then run the jsonpath pipeline for a
    textual result. -/
def extractValue (jp : PathEval) (data : JsonDoc) (path : String) :
    Except Unit String :=
  match data with
  | none => .error ()
  | some jsonData => jp.evalText jsonData path

/-- `extractValue(logger, data, path, true)`: the same with
    `EnableJSONOutput(true)`, the result seen through the re-parse done by
    the caller's `json.Unmarshal`. -/
def extractValueJSON (jp : PathEval) (data : JsonDoc) (path : String) :
    Except Unit JsonValue :=
  match data with
  | none => .error ()
  | some jsonData => jp.evalJson jsonData path

/-- `extractLabels`: one label per path, evaluated against the single given
    buffer; a failing path leaves the slot at its zero value `""`. -/
def extractLabels (jp : PathEval) (data : JsonDoc) (paths : List String) :
    List String :=
  paths.map fun path =>
    match extractValue jp data path with
    | .ok result => result
    | .error _ => ""

/-- `convertValueIfNeeded`: if the converter map is non-nil and has an entry
    for the metric's value path, the extracted value is lowercased and
    looked up; a hit replaces it, and on a miss the (lowercased) value is
    returned. -/
def convertValueIfNeeded (m : JSONMetric) (value : String) : String :=
  match m.ValueConverter with
  | none => value
  | some converter =>
    match converter.lookup m.ValueJSONPath with
    | none => value
    | some valueMappings =>
      match valueMappings.lookup (goToLower value) with
      | none => goToLower value
      | some replacement => replacement

/-- `selectRightJsonData`: strip spaces from the path, then look for `"$"`
    anywhere in the Go byte slice `noSpacePath[0:4]`.  When the stripped
    path has fewer than four bytes that slice expression panics — modelled
    by `none`. -/
def selectRightJsonData (rootData childData : JsonDoc) (path : String) :
    Option JsonDoc :=
  if goLen (replaceAllSpaces path) < 4 then
    none
  else if containsDollar (takeChars (replaceAllSpaces path) 4) then
    some rootData
  else
    some childData

/-- `extractLabelsWithParentNode`: like `extractLabels` but choosing, per
    path, between the child buffer and the root buffer via
    `selectRightJsonData`.  A panic there (`none`) propagates: no label
    list is produced and the run crashes. -/
def extractLabelsWithParentNode (jp : PathEval) (childData rootData : JsonDoc) :
    List String → Option (List String)
  | [] => some []
  | path :: rest =>
    match selectRightJsonData rootData childData path with
    | none => none
    | some selectedData =>
      let label :=
        match extractValue jp selectedData path with
        | .ok result => result
        | .error _ => ""
      match extractLabelsWithParentNode jp childData rootData rest with
      | none => none
      | some labels => some (label :: labels)

/-- What the two-scope label resolver returns when no path crashes scope
    selection, written positionally following the specification's words
    (§4.4): for each path independently, choose the scope, evaluate with
    the path evaluator, and contribute the empty string on failure. -/
def resolveLabelsSpec (jp : PathEval) (childData rootData : JsonDoc)
    (paths : List String) : List String :=
  paths.map fun path =>
    match selectRightJsonData rootData childData path with
    | some selectedData =>
      match extractValue jp selectedData path with
      | .ok result => result
      | .error _ => ""
    | none => ""

/-- One iteration of the ObjectScrape element loop.  `json.Marshal` of a
    value that was just produced by `json.Unmarshal` cannot fail, so the
    source's continue-on-marshal-error branch is unreachable and the child
    buffer is the element itself.  Result: `none` = the iteration panicked
    (inside label resolution); `some none` = the element was skipped
    (extraction or normalization failed); `some (some o)` = the element
    emitted the observation `o`. -/
def collectObjectElement (jp : PathEval) (sanitize : String → Except Unit Rat)
    (m : JSONMetric) (rootData : JsonDoc) (element : JsonValue) :
    Option (Option Observation) :=
  let jdata : JsonDoc := some element
  match extractValue jp jdata m.ValueJSONPath with
  | .error _ => some none
  | .ok extracted =>
    let value := convertValueIfNeeded m extracted
    match sanitize value with
    | .error _ => some none
    | .ok floatValue =>
      match extractLabelsWithParentNode jp jdata rootData m.LabelsJSONPaths with
      | none => none
      | some labelValues =>
        some (some { desc := m.Desc, valueType := m.ValueType,
                     value := floatValue, labelValues := labelValues,
                     timestamp := none })

/-- The `for _, data := range jsonData` loop of the ObjectScrape branch:
    elements in document order, failed elements skipped, a panic aborting
    the rest of the loop (keeping what was already sent). -/
def collectObjectElements (jp : PathEval) (sanitize : String → Except Unit Rat)
    (m : JSONMetric) (rootData : JsonDoc) :
    List JsonValue → List Observation × Bool
  | [] => ([], false)
  | element :: rest =>
    match collectObjectElement jp sanitize m rootData element with
    | none => ([], true)
    | some none => collectObjectElements jp sanitize m rootData rest
    | some (some obs) =>
      let r := collectObjectElements jp sanitize m rootData rest
      (obs :: r.1, r.2)

/-- The body of `Collect`'s `switch m.Type` for a single descriptor `m`,
    run against the collector's buffer `data` (which is also the root
    buffer `rootData` of the label-scope split). -/
def collectMetric (jp : PathEval) (sanitize : String → Except Unit Rat)
    (m : JSONMetric) (data : JsonDoc) : List Observation × Bool :=
  match m.Type' with
  | .valueScrape =>
    match extractValue jp data m.KeyJSONPath with
    | .error _ => ([], false)
    | .ok value =>
      match sanitize value with
      | .ok floatValue =>
        ([{ desc := m.Desc, valueType := m.ValueType, value := floatValue,
            labelValues := extractLabels jp data m.LabelsJSONPaths,
            timestamp := none }], false)
      | .error _ => ([], false)
  | .objectScrape =>
    match extractValueJSON jp data m.KeyJSONPath with
    | .error _ => ([], false)
    | .ok values =>
      match values with
      | .arr jsonData => collectObjectElements jp sanitize m data jsonData
      | _ => ([], false)
  | .other _ => ([], false)

/-- The `for _, m := range mc.JSONMetrics` loop of `Collect`: descriptors
    in configured order, a panic aborting the remaining descriptors. -/
def collectMetrics (jp : PathEval) (sanitize : String → Except Unit Rat)
    (data : JsonDoc) : List JSONMetric → List Observation × Bool
  | [] => ([], false)
  | m :: rest =>
    let r := collectMetric jp sanitize m data
    if r.2 then
      (r.1, true)
    else
      let r' := collectMetrics jp sanitize data rest
      (r.1 ++ r'.1, r'.2)

/-- The package-level `jsonExporterStatusDesc` pointer. -/
def jsonExporterStatusDesc : MetricDesc := .statusDesc

/-- The fixed status metric `Collect` sends first on every run:
    `MustNewConstMetric(jsonExporterStatusDesc, GaugeValue, 0)` —
    constant value `0`, no labels, no explicit timestamp. -/
def jsonExporterStatusObservation : Observation :=
  { desc := jsonExporterStatusDesc, valueType := .gaugeValue, value := 0,
    labelValues := [], timestamp := none }

/-- `Collect`: send the fixed status metric, then process every descriptor
    in order against `mc.Data`.  The logger field is never consulted for
    the emitted metrics. -/
def Collect (jp : PathEval) (sanitize : String → Except Unit Rat)
    (mc : JSONMetricCollector) : CollectResult :=
  let r := collectMetrics jp sanitize mc.Data mc.JSONMetrics
  { emitted := jsonExporterStatusObservation :: r.1, panicked := r.2 }

/-!
## Concrete collaborators and inputs

Closed theorems below run the engine on explicit inputs.  The abstract
collaborators (path evaluator, value normalizer) are instantiated with
small executable stand-ins; the engine theorems themselves are quantified
over arbitrary collaborators.
-/

/-- Strip one leading `"$."` root anchor from a path. -/
def stripAnchor (path : String) : String :=
  match path.toList with
  | '$' :: '.' :: rest => ⟨rest⟩
  | _ => path

/-- A small executable path evaluator: a path names one top-level object
    field (after stripping an optional leading `"$."`). -/
def fieldLookup (v : JsonValue) (path : String) : Except Unit JsonValue :=
  match v with
  | .obj fields =>
    match fields.lookup (stripAnchor path) with
    | some value => .ok value
    | none => .error ()
  | _ => .error ()

/-- The concrete `PathEval` built from `fieldLookup`: textual mode renders
    only string fields (unquoted), JSON mode returns the matched value. -/
def toyEval : PathEval where
  evalText v path :=
    match fieldLookup v path with
    | .ok (.str s) => .ok s
    | .ok _ => .error ()
    | .error _ => .error ()
  evalJson := fieldLookup

/-- Decimal digit parser backing the concrete normalizer. -/
def parseDigits (cs : List Char) : Option Nat :=
  cs.foldl (fun acc c =>
    match acc with
    | none => none
    | some n => if c.isDigit then some (n * 10 + (c.toNat - 48)) else none)
    (some 0)

/-- A concrete value normalizer: accepts non-empty decimal digit strings,
    rejects everything else. -/
def toySanitize (s : String) : Except Unit Rat :=
  match s.toList with
  | [] => .error ()
  | _ =>
    match parseDigits s.toList with
    | some n => .ok (n : Rat)
    | none => .error ()

/-- A remap table keyed by the value path `"state"`. -/
def statusTable : ValueConverterType :=
  [("state", [("down", "0"), ("up", "1")])]

/-- A descriptor carrying the remap table above. -/
def convMetric : JSONMetric :=
  { Desc := .configDesc "service_state", Type' := .objectScrape,
    KeyJSONPath := "services", ValueJSONPath := "state",
    LabelsJSONPaths := [], ValueType := .gaugeValue,
    ValueConverter := some statusTable, EpochTimestampJSONPath := "" }

/-- An ObjectScrape descriptor whose label path `"v"` has fewer than four
    characters after space removal. -/
def crashMetric : JSONMetric :=
  { Desc := .configDesc "item_value", Type' := .objectScrape,
    KeyJSONPath := "items", ValueJSONPath := "v",
    LabelsJSONPaths := ["v"], ValueType := .gaugeValue,
    ValueConverter := none, EpochTimestampJSONPath := "" }

/-- The single array element of the crashing run. -/
def crashElement : JsonValue := .obj [("v", .str "3")]

/-- A collector whose payload gives `crashMetric` a one-element array. -/
def crashCollector : JSONMetricCollector :=
  { JSONMetrics := [crashMetric],
    Data := some (.obj [("items", .arr [crashElement])]),
    Logger := "" }

/-- A ScalarScrape descriptor that declares an epoch timestamp path. -/
def epochMetric : JSONMetric :=
  { Desc := .configDesc "example_value", Type' := .valueScrape,
    KeyJSONPath := "v", ValueJSONPath := "",
    LabelsJSONPaths := [], ValueType := .gaugeValue,
    ValueConverter := none, EpochTimestampJSONPath := "ts" }

/-- A collector whose payload holds both the value and the timestamp the
    epoch path points at. -/
def epochCollector : JSONMetricCollector :=
  { JSONMetrics := [epochMetric],
    Data := some (.obj [("v", .str "7"), ("ts", .str "99")]),
    Logger := "" }

/-- A well-formed ObjectScrape descriptor (label path four characters). -/
def okMetric : JSONMetric :=
  { Desc := .configDesc "item_value_ok", Type' := .objectScrape,
    KeyJSONPath := "items", ValueJSONPath := "v",
    LabelsJSONPaths := ["name"], ValueType := .gaugeValue,
    ValueConverter := none, EpochTimestampJSONPath := "" }

/-- First array element of the well-formed run. -/
def okElementA : JsonValue := .obj [("v", .str "3"), ("name", .str "a")]

/-- Second array element of the well-formed run. -/
def okElementB : JsonValue := .obj [("v", .str "5"), ("name", .str "b")]

/-- Payload giving `okMetric` a two-element array. -/
def okData : JsonDoc := some (.obj [("items", .arr [okElementA, okElementB])])

/-!
## Claim C1 — value-converter miss behavior
-/

/-- C1 (counterexample): with the remap table keyed by the value path
    `"state"` and extracted raw value `"Unknown"`, the lowercased value
    `"unknown"` is not a key of the table, yet `convertValueIfNeeded`
    returns `"unknown"`, not the original `"Unknown"` — the original's
    case is not preserved. -/
theorem convert_miss_case_not_preserved_cex :
    statusTable.lookup convMetric.ValueJSONPath = some [("down", "0"), ("up", "1")] ∧
    List.lookup (goToLower "Unknown") [("down", "0"), ("up", "1")] = none ∧
    convertValueIfNeeded convMetric "Unknown" = "unknown" ∧
    "unknown" ≠ "Unknown" :=
  ⟨rfl, by decide, by decide, by decide⟩

/-- C1 (amended): when the descriptor's converter map has a table for its
    value path and the lowercased raw value is not a key of that table,
    `convertValueIfNeeded` returns the lowercased raw value — the original
    is preserved only up to case (unchanged exactly when it is already
    lowercase, e.g. `"unknown"`). -/
theorem convert_miss_returns_lowercased
    (m : JSONMetric) (value : String) (converter : ValueConverterType)
    (valueMappings : List (String × String))
    (hconv : m.ValueConverter = some converter)
    (hpath : converter.lookup m.ValueJSONPath = some valueMappings)
    (hmiss : valueMappings.lookup (goToLower value) = none) :
    convertValueIfNeeded m value = goToLower value := by
  simp [convertValueIfNeeded, hconv, hpath, hmiss]

/-- C1 witness: the amended statement at the concrete miss input. -/
theorem convert_miss_returns_lowercased_witness :
    convertValueIfNeeded convMetric "Unknown" = goToLower "Unknown" :=
  convert_miss_returns_lowercased convMetric "Unknown" statusTable
    [("down", "0"), ("up", "1")] rfl rfl (by decide)

/-!
## Claim C2 — label scope selection
-/

/-- C2 (counterexample): the space-stripped path `"ab$c"` does not begin
    with the root-anchor marker `$`, so the claim requires the child scope;
    the code nevertheless selects the root scope, because `$` occurs among
    the first four bytes. -/
theorem scope_selection_begins_with_cex :
    (replaceAllSpaces "ab$c").toList.head? ≠ some '$' ∧
    selectRightJsonData (some (JsonValue.str "root")) (some (JsonValue.str "child"))
      "ab$c" = some (some (JsonValue.str "root")) ∧
    (some (JsonValue.str "root") : JsonDoc) ≠ some (JsonValue.str "child") := by
  refine ⟨by decide, rfl, ?_⟩
  intro h
  injection h with h1
  injection h1 with h2
  exact absurd h2 (by decide)

/-- C2 (amended): after removing all spaces from the path, the root scope
    is selected iff the marker `$` occurs anywhere among the first four
    bytes (not merely when the path begins with it); a path with fewer
    than four bytes after space removal makes scope selection panic,
    crashing the run. -/
theorem scope_selection_amended (rootData childData : JsonDoc) (path : String) :
    (goLen (replaceAllSpaces path) < 4 →
      selectRightJsonData rootData childData path = none) ∧
    (4 ≤ goLen (replaceAllSpaces path) →
      (containsDollar (takeChars (replaceAllSpaces path) 4) = true →
        selectRightJsonData rootData childData path = some rootData) ∧
      (containsDollar (takeChars (replaceAllSpaces path) 4) = false →
        selectRightJsonData rootData childData path = some childData)) := by
  constructor
  · intro h
    simp [selectRightJsonData, h]
  · intro h
    have h' : ¬ goLen (replaceAllSpaces path) < 4 := by omega
    exact ⟨fun hc => by simp [selectRightJsonData, h', hc],
           fun hc => by simp [selectRightJsonData, h', hc]⟩

/-- C2 witness: the amended statement at the root-anchored path
    `"$.status"`. -/
theorem scope_selection_amended_witness :
    selectRightJsonData (some (JsonValue.str "root")) (some (JsonValue.str "child"))
      "$.status" = some (some (JsonValue.str "root")) :=
  ((scope_selection_amended _ _ "$.status").2 (by decide)).1 (by decide)

/-!
## Claim C3 — the run can in fact crash
-/

/-- C3 (code bug, run at the failing input): in `crashCollector` the only
    descriptor is an ObjectScrape whose single array element's value path
    matches (`"3"`) and normalizes (`3`), yet the run panics — the label
    path `"v"` has fewer than four bytes after space removal, so the Go
    slice `noSpacePath[0:4]` inside `selectRightJsonData` is out of bounds —
    and only the status metric was emitted before the crash. -/
theorem short_label_path_panics :
    extractValue toyEval (some crashElement) crashMetric.ValueJSONPath = .ok "3" ∧
    toySanitize "3" = .ok 3 ∧
    selectRightJsonData crashCollector.Data (some crashElement) "v" = none ∧
    (Collect toyEval toySanitize crashCollector).panicked = true ∧
    (Collect toyEval toySanitize crashCollector).emitted =
      [jsonExporterStatusObservation] :=
  ⟨rfl, by decide, rfl, rfl, rfl⟩

/-!
## Claim C4 — the epoch timestamp path is dead
-/

/-- C4 (code bug, run at the failing input): `epochMetric` declares the
    epoch timestamp path `"ts"` and its payload carries `"ts"`, the run
    emits the descriptor's observation — yet no emitted observation
    carries an explicit timestamp: `Collect` only ever builds metrics via
    `MustNewConstMetric` and never reads `EpochTimestampJSONPath`. -/
theorem epoch_timestamp_never_attached :
    epochMetric.EpochTimestampJSONPath = "ts" ∧
    (Collect toyEval toySanitize epochCollector).emitted =
      [jsonExporterStatusObservation,
       { desc := .configDesc "example_value", valueType := .gaugeValue,
         value := 7, labelValues := [], timestamp := none }] ∧
    ∀ o ∈ (Collect toyEval toySanitize epochCollector).emitted,
      o.timestamp = none :=
  ⟨rfl, by decide, by decide⟩

/-!
## Claim C9 — determinism / statelessness
-/

/-- C9: `Collect` is a pure function of the descriptor list and the payload
    only: two collectors agreeing on `JSONMetrics` and `Data` (the logger
    may differ) produce identical results under any collaborators, so two
    runs on the same inputs give the same observation sequence and no state
    flows from one run into the next. -/
theorem collect_deterministic_stateless
    (jp : PathEval) (sanitize : String → Except Unit Rat)
    (mc1 mc2 : JSONMetricCollector)
    (hmetrics : mc1.JSONMetrics = mc2.JSONMetrics)
    (hdata : mc1.Data = mc2.Data) :
    Collect jp sanitize mc1 = Collect jp sanitize mc2 := by
  simp [Collect, hmetrics, hdata]

/-- C9 witness: two runs differing only in the logger field. -/
theorem collect_deterministic_stateless_witness :
    Collect toyEval toySanitize
        { JSONMetrics := [epochMetric], Data := epochCollector.Data,
          Logger := "logger-a" } =
      Collect toyEval toySanitize
        { JSONMetrics := [epochMetric], Data := epochCollector.Data,
          Logger := "logger-b" } :=
  collect_deterministic_stateless toyEval toySanitize _ _ rfl rfl

/-!
## Claim C10 — empty descriptor list
-/

/-- C10: with an empty descriptor list, a run over any payload (parsed or
    not — the payload is never inspected) emits exactly the fixed status
    observation: gauge, value 0, no labels. -/
theorem empty_descriptor_list_status_only
    (jp : PathEval) (sanitize : String → Except Unit Rat)
    (data : JsonDoc) (logger : String) :
    Collect jp sanitize { JSONMetrics := [], Data := data, Logger := logger } =
      { emitted := [jsonExporterStatusObservation], panicked := false } ∧
    jsonExporterStatusObservation.value = 0 ∧
    jsonExporterStatusObservation.labelValues = [] ∧
    jsonExporterStatusObservation.valueType = PromValueType.gaugeValue :=
  ⟨rfl, rfl, rfl, rfl⟩

/-!
## Helper lemmas about the engine
-/

/-- Scope selection cannot panic on a path with at least four bytes after
    space removal. -/
theorem selectRightJsonData_isSome (rootData childData : JsonDoc) (path : String)
    (hp : 4 ≤ goLen (replaceAllSpaces path)) :
    ∃ d, selectRightJsonData rootData childData path = some d := by
  unfold selectRightJsonData
  rw [if_neg (by omega)]
  by_cases hc : containsDollar (takeChars (replaceAllSpaces path) 4) = true
  · exact ⟨rootData, by simp [hc]⟩
  · exact ⟨childData, by simp [hc]⟩

/-- When every path is long enough for scope selection, the two-scope
    resolver refines its positional specification. -/
theorem extractLabelsWithParentNode_eq_spec
    (jp : PathEval) (childData rootData : JsonDoc) (paths : List String)
    (h : ∀ p ∈ paths, 4 ≤ goLen (replaceAllSpaces p)) :
    extractLabelsWithParentNode jp childData rootData paths =
      some (resolveLabelsSpec jp childData rootData paths) := by
  induction paths with
  | nil => rfl
  | cons p rest ih =>
    have hp : 4 ≤ goLen (replaceAllSpaces p) := h p (List.mem_cons_self _ _)
    have hrest := ih (fun q hq => h q (List.mem_cons_of_mem _ hq))
    obtain ⟨d, hd⟩ := selectRightJsonData_isSome rootData childData p hp
    cases hE : extractValue jp d p with
    | ok result =>
      simp [extractLabelsWithParentNode, resolveLabelsSpec, hd, hE, hrest]
    | error u =>
      simp [extractLabelsWithParentNode, resolveLabelsSpec, hd, hE, hrest]

/-- An ObjectScrape element whose value extraction and normalization both
    succeed, under panic-free label paths, emits exactly its observation. -/
theorem collectObjectElement_emits
    (jp : PathEval) (sanitize : String → Except Unit Rat) (m : JSONMetric)
    (rootData : JsonDoc) (element : JsonValue) (v : String) (q : Rat)
    (hlab : ∀ p ∈ m.LabelsJSONPaths, 4 ≤ goLen (replaceAllSpaces p))
    (hv : extractValue jp (some element) m.ValueJSONPath = .ok v)
    (hq : sanitize (convertValueIfNeeded m v) = .ok q) :
    collectObjectElement jp sanitize m rootData element =
      some (some { desc := m.Desc, valueType := m.ValueType, value := q,
                   labelValues := resolveLabelsSpec jp (some element) rootData
                     m.LabelsJSONPaths,
                   timestamp := none }) := by
  simp [collectObjectElement, hv, hq,
    extractLabelsWithParentNode_eq_spec jp (some element) rootData _ hlab]

/-- An ObjectScrape element whose value path fails is skipped without a
    panic and without an observation. -/
theorem collectObjectElement_skip_on_value_error
    (jp : PathEval) (sanitize : String → Except Unit Rat) (m : JSONMetric)
    (rootData : JsonDoc) (element : JsonValue)
    (hv : extractValue jp (some element) m.ValueJSONPath = .error ()) :
    collectObjectElement jp sanitize m rootData element = some none := by
  simp [collectObjectElement, hv]

/-- If every element emits, the loop emits one observation per element and
    does not panic. -/
theorem collectObjectElements_all_emit
    (jp : PathEval) (sanitize : String → Except Unit Rat) (m : JSONMetric)
    (rootData : JsonDoc) (elems : List JsonValue)
    (h : ∀ e ∈ elems,
      ∃ o, collectObjectElement jp sanitize m rootData e = some (some o)) :
    (collectObjectElements jp sanitize m rootData elems).2 = false ∧
    (collectObjectElements jp sanitize m rootData elems).1.length = elems.length := by
  induction elems with
  | nil => exact ⟨rfl, rfl⟩
  | cons e rest ih =>
    obtain ⟨o, ho⟩ := h e (List.mem_cons_self _ _)
    have hrest := ih (fun x hx => h x (List.mem_cons_of_mem _ hx))
    simp [collectObjectElements, ho, hrest.1, hrest.2]

/-- If every element emits, the loop's output corresponds element-wise, in
    document order, to the array: the i-th emitted observation is exactly
    the observation of the i-th element. -/
theorem collectObjectElements_all_emit_forall2
    (jp : PathEval) (sanitize : String → Except Unit Rat) (m : JSONMetric)
    (rootData : JsonDoc) (elems : List JsonValue)
    (h : ∀ e ∈ elems,
      ∃ o, collectObjectElement jp sanitize m rootData e = some (some o)) :
    List.Forall₂
      (fun e o => collectObjectElement jp sanitize m rootData e = some (some o))
      elems (collectObjectElements jp sanitize m rootData elems).1 := by
  induction elems with
  | nil => exact List.Forall₂.nil
  | cons e rest ih =>
    obtain ⟨o, ho⟩ := h e (List.mem_cons_self _ _)
    have hrest := ih (fun x hx => h x (List.mem_cons_of_mem _ hx))
    simp only [collectObjectElements, ho]
    exact List.Forall₂.cons ho hrest

/-- The element loop distributes over concatenation as long as the first
    part does not panic. -/
theorem collectObjectElements_append
    (jp : PathEval) (sanitize : String → Except Unit Rat) (m : JSONMetric)
    (rootData : JsonDoc) (l1 l2 : List JsonValue)
    (h : (collectObjectElements jp sanitize m rootData l1).2 = false) :
    collectObjectElements jp sanitize m rootData (l1 ++ l2) =
      ((collectObjectElements jp sanitize m rootData l1).1 ++
        (collectObjectElements jp sanitize m rootData l2).1,
       (collectObjectElements jp sanitize m rootData l2).2) := by
  induction l1 with
  | nil => simp [collectObjectElements]
  | cons e rest ih =>
    cases hel : collectObjectElement jp sanitize m rootData e with
    | none => simp [collectObjectElements, hel] at h
    | some oo =>
      cases oo with
      | none =>
        have h' : (collectObjectElements jp sanitize m rootData rest).2 = false := by
          simpa [collectObjectElements, hel] using h
        simp [collectObjectElements, hel, ih h']
      | some o =>
        have h' : (collectObjectElements jp sanitize m rootData rest).2 = false := by
          simpa [collectObjectElements, hel] using h
        simp [collectObjectElements, hel, ih h']

/-- An emitted element observation carries the descriptor of its metric. -/
theorem collectObjectElement_desc
    (jp : PathEval) (sanitize : String → Except Unit Rat) (m : JSONMetric)
    (rootData : JsonDoc) (element : JsonValue) (o : Observation)
    (h : collectObjectElement jp sanitize m rootData element = some (some o)) :
    o.desc = m.Desc := by
  cases hv : extractValue jp (some element) m.ValueJSONPath with
  | error u => simp [collectObjectElement, hv] at h
  | ok v =>
    cases hs : sanitize (convertValueIfNeeded m v) with
    | error u => simp [collectObjectElement, hv, hs] at h
    | ok q =>
      cases hl : extractLabelsWithParentNode jp (some element) rootData
          m.LabelsJSONPaths with
      | none => simp [collectObjectElement, hv, hs, hl] at h
      | some ls =>
        simp only [collectObjectElement, hv, hs, hl] at h
        injection h with h1
        injection h1 with h2
        rw [← h2]

/-- Every observation of the element loop carries the metric's descriptor. -/
theorem collectObjectElements_desc_mem
    (jp : PathEval) (sanitize : String → Except Unit Rat) (m : JSONMetric)
    (rootData : JsonDoc) (elems : List JsonValue) (o : Observation)
    (ho : o ∈ (collectObjectElements jp sanitize m rootData elems).1) :
    o.desc = m.Desc := by
  induction elems with
  | nil => simp [collectObjectElements] at ho
  | cons e rest ih =>
    cases hel : collectObjectElement jp sanitize m rootData e with
    | none => simp [collectObjectElements, hel] at ho
    | some oo =>
      cases oo with
      | none =>
        simp only [collectObjectElements, hel] at ho
        exact ih ho
      | some o' =>
        simp only [collectObjectElements, hel] at ho
        rcases List.mem_cons.mp ho with hcase | hcase
        · rw [hcase]
          exact collectObjectElement_desc jp sanitize m rootData e o' hel
        · exact ih hcase

/-- Every observation of one descriptor's processing carries its
    descriptor. -/
theorem collectMetric_desc_mem
    (jp : PathEval) (sanitize : String → Except Unit Rat) (m : JSONMetric)
    (data : JsonDoc) (o : Observation)
    (ho : o ∈ (collectMetric jp sanitize m data).1) :
    o.desc = m.Desc := by
  cases htype : m.Type' with
  | valueScrape =>
    cases hx : extractValue jp data m.KeyJSONPath with
    | error u => simp [collectMetric, htype, hx] at ho
    | ok v =>
      cases hs : sanitize v with
      | error u => simp [collectMetric, htype, hx, hs] at ho
      | ok q =>
        simp only [collectMetric, htype, hx, hs] at ho
        rw [List.mem_singleton.mp ho]
  | objectScrape =>
    cases hx : extractValueJSON jp data m.KeyJSONPath with
    | error u => simp [collectMetric, htype, hx] at ho
    | ok values =>
      cases values with
      | arr jsonData =>
        simp only [collectMetric, htype, hx] at ho
        exact collectObjectElements_desc_mem jp sanitize m data jsonData o ho
      | null => simp [collectMetric, htype, hx] at ho
      | bool b => simp [collectMetric, htype, hx] at ho
      | num q => simp [collectMetric, htype, hx] at ho
      | str s => simp [collectMetric, htype, hx] at ho
      | obj fields => simp [collectMetric, htype, hx] at ho
  | other tag => simp [collectMetric, htype] at ho

/-- Every observation of the descriptor loop carries the descriptor of one
    of the processed metrics. -/
theorem collectMetrics_desc_mem
    (jp : PathEval) (sanitize : String → Except Unit Rat) (data : JsonDoc)
    (ms : List JSONMetric) (o : Observation)
    (ho : o ∈ (collectMetrics jp sanitize data ms).1) :
    ∃ m ∈ ms, o.desc = m.Desc := by
  induction ms with
  | nil => simp [collectMetrics] at ho
  | cons m rest ih =>
    cases hr : (collectMetric jp sanitize m data).2 with
    | true =>
      simp [collectMetrics, hr] at ho
      exact ⟨m, List.mem_cons_self _ _, collectMetric_desc_mem jp sanitize m data o ho⟩
    | false =>
      simp [collectMetrics, hr] at ho
      rcases ho with hcase | hcase
      · exact ⟨m, List.mem_cons_self _ _,
          collectMetric_desc_mem jp sanitize m data o hcase⟩
      · obtain ⟨m', hm', hd⟩ := ih hcase
        exact ⟨m', List.mem_cons_of_mem _ hm', hd⟩

/-!
## Claim C5 — ObjectScrape observation counts
-/

/-- C5 (counterexample): `crashMetric`'s key path resolves to a one-element
    array and the element's value path matches (`"3"`) and normalizes
    (`3`), so the claim requires exactly one observation for the
    descriptor; the code instead emits none and panics, because the label
    path `"v"` crashes scope selection. -/
theorem object_scrape_counts_cex :
    extractValue toyEval (some crashElement) crashMetric.ValueJSONPath = .ok "3" ∧
    toySanitize (convertValueIfNeeded crashMetric "3") = .ok 3 ∧
    (collectMetric toyEval toySanitize crashMetric crashCollector.Data).1.length = 0 ∧
    (collectMetric toyEval toySanitize crashMetric crashCollector.Data).2 = true :=
  ⟨rfl, by decide, rfl, rfl⟩

/-- C5 (amended): for an ObjectScrape descriptor whose key path resolves to
    an array of N elements, provided additionally that every label path has
    at least four bytes after space removal (otherwise scope selection
    panics and the run crashes): if every element's value path matches and
    normalizes, exactly N observations are emitted for the descriptor
    without a panic, and in document order — the emitted list corresponds
    element-wise (`List.Forall₂`) to the array, the i-th observation being
    exactly the one the i-th element emits; if exactly one element's value
    path fails to match,
    N−1 observations are emitted, the failing element contributes no
    partial observation, and the remaining elements are still processed in
    document order. -/
theorem object_scrape_counts_amended
    (jp : PathEval) (sanitize : String → Except Unit Rat)
    (m : JSONMetric) (data : JsonDoc) (elems : List JsonValue)
    (htype : m.Type' = ScrapeType.objectScrape)
    (hkey : extractValueJSON jp data m.KeyJSONPath = .ok (JsonValue.arr elems))
    (hlab : ∀ p ∈ m.LabelsJSONPaths, 4 ≤ goLen (replaceAllSpaces p)) :
    ((∀ e ∈ elems, ∃ v q,
        extractValue jp (some e) m.ValueJSONPath = .ok v ∧
        sanitize (convertValueIfNeeded m v) = .ok q) →
      (collectMetric jp sanitize m data).2 = false ∧
      (collectMetric jp sanitize m data).1.length = elems.length ∧
      List.Forall₂
        (fun e o => collectObjectElement jp sanitize m data e = some (some o))
        elems (collectMetric jp sanitize m data).1) ∧
    (∀ pre bad post, elems = pre ++ bad :: post →
      (∀ e ∈ pre ++ post, ∃ v q,
        extractValue jp (some e) m.ValueJSONPath = .ok v ∧
        sanitize (convertValueIfNeeded m v) = .ok q) →
      extractValue jp (some bad) m.ValueJSONPath = .error () →
      (collectMetric jp sanitize m data).2 = false ∧
      (collectMetric jp sanitize m data).1.length = pre.length + post.length ∧
      (collectMetric jp sanitize m data).1 =
        (collectObjectElements jp sanitize m data pre).1 ++
          (collectObjectElements jp sanitize m data post).1) := by
  have hm : collectMetric jp sanitize m data =
      collectObjectElements jp sanitize m data elems := by
    simp [collectMetric, htype, hkey]
  constructor
  · intro hall
    have hemit : ∀ e ∈ elems,
        ∃ o, collectObjectElement jp sanitize m data e = some (some o) := by
      intro e he
      obtain ⟨v, q, hv, hq⟩ := hall e he
      exact ⟨_, collectObjectElement_emits jp sanitize m data e v q hlab hv hq⟩
    have h := collectObjectElements_all_emit jp sanitize m data elems hemit
    have h2 := collectObjectElements_all_emit_forall2 jp sanitize m data elems hemit
    rw [hm]
    exact ⟨h.1, h.2, h2⟩
  · intro pre bad post helems hsucc hbad
    subst helems
    have hpre_emit : ∀ e ∈ pre,
        ∃ o, collectObjectElement jp sanitize m data e = some (some o) := by
      intro e he
      obtain ⟨v, q, hv, hq⟩ := hsucc e (List.mem_append_left _ he)
      exact ⟨_, collectObjectElement_emits jp sanitize m data e v q hlab hv hq⟩
    have hpost_emit : ∀ e ∈ post,
        ∃ o, collectObjectElement jp sanitize m data e = some (some o) := by
      intro e he
      obtain ⟨v, q, hv, hq⟩ := hsucc e (List.mem_append_right _ he)
      exact ⟨_, collectObjectElement_emits jp sanitize m data e v q hlab hv hq⟩
    have hpre := collectObjectElements_all_emit jp sanitize m data pre hpre_emit
    have hpost := collectObjectElements_all_emit jp sanitize m data post hpost_emit
    have hskip : collectObjectElements jp sanitize m data (bad :: post) =
        collectObjectElements jp sanitize m data post := by
      simp [collectObjectElements,
        collectObjectElement_skip_on_value_error jp sanitize m data bad hbad]
    have happ := collectObjectElements_append jp sanitize m data pre (bad :: post)
      hpre.1
    rw [hm, happ, hskip]
    refine ⟨hpost.1, ?_, rfl⟩
    simp [hpre.2, hpost.2]

/-- C5 witness: the amended statement on a two-element array where both
    elements succeed (values "3" and "5", label path "name"): no panic, two
    observations, element-wise in document order. -/
theorem object_scrape_counts_amended_witness :
    (collectMetric toyEval toySanitize okMetric okData).2 = false ∧
    (collectMetric toyEval toySanitize okMetric okData).1.length = 2 ∧
    List.Forall₂
      (fun e o => collectObjectElement toyEval toySanitize okMetric okData e =
        some (some o))
      [okElementA, okElementB] (collectMetric toyEval toySanitize okMetric okData).1 := by
  have hsucc : ∀ e ∈ [okElementA, okElementB], ∃ v q,
      extractValue toyEval (some e) okMetric.ValueJSONPath = .ok v ∧
      toySanitize (convertValueIfNeeded okMetric v) = .ok q := by
    intro e he
    rcases List.mem_cons.mp he with hcase | hcase
    · subst hcase
      exact ⟨"3", 3, rfl, by decide⟩
    · have hb : e = okElementB := by simpa using hcase
      subst hb
      exact ⟨"5", 5, rfl, by decide⟩
  have h := (object_scrape_counts_amended toyEval toySanitize okMetric okData
      [okElementA, okElementB] rfl rfl (by decide)).1 hsucc
  simpa using h

/-!
## Claim C6 — the fixed status observation
-/

/-- C6: on every run — whatever the collaborators, descriptors and payload,
    and however many descriptors fail — the fixed exporter-status
    observation (gauge 0, no labels) is the first emitted observation and
    occurs exactly once.  The hypothesis says no descriptor carries the
    status `Desc`, which holds in the program because every configured
    metric's `Desc` is a fresh `prometheus.NewDesc` pointer distinct from
    the package-level status pointer. -/
theorem status_first_and_once
    (jp : PathEval) (sanitize : String → Except Unit Rat)
    (mc : JSONMetricCollector)
    (hdesc : ∀ m ∈ mc.JSONMetrics, m.Desc ≠ MetricDesc.statusDesc) :
    (Collect jp sanitize mc).emitted.head? = some jsonExporterStatusObservation ∧
    (Collect jp sanitize mc).emitted.count jsonExporterStatusObservation = 1 := by
  have hne : ∀ o ∈ (collectMetrics jp sanitize mc.Data mc.JSONMetrics).1,
      o ≠ jsonExporterStatusObservation := by
    intro o ho heq
    obtain ⟨m, hm, hd⟩ := collectMetrics_desc_mem jp sanitize mc.Data
      mc.JSONMetrics o ho
    apply hdesc m hm
    rw [← hd, heq]
    rfl
  have hzero : (collectMetrics jp sanitize mc.Data mc.JSONMetrics).1.count
      jsonExporterStatusObservation = 0 :=
    List.count_eq_zero.mpr (fun hmem => hne _ hmem rfl)
  constructor
  · rfl
  · show (jsonExporterStatusObservation ::
        (collectMetrics jp sanitize mc.Data mc.JSONMetrics).1).count
        jsonExporterStatusObservation = 1
    rw [List.count_cons_self, hzero]

/-- C6 witness: the status observation is first and unique on a concrete
    run with one (partially failing or succeeding) descriptor. -/
theorem status_first_and_once_witness :
    (Collect toyEval toySanitize epochCollector).emitted.head? =
      some jsonExporterStatusObservation ∧
    (Collect toyEval toySanitize epochCollector).emitted.count
      jsonExporterStatusObservation = 1 :=
  status_first_and_once toyEval toySanitize epochCollector (by decide)

/-!
## Claim C7 — label resolution length and independence
-/

/-- C7 (counterexample): for the label path list `["v"]` and the concrete
    scope pair, the two-scope resolver does not return a list of length 1
    — it returns no list at all, because scope selection for the
    three-byte-short path panics. -/
theorem label_resolution_cex :
    extractLabelsWithParentNode toyEval (some crashElement) crashCollector.Data
      ["v"] = none :=
  rfl

/-- C7 (amended): the one-scope resolver always returns one label per path;
    the two-scope resolver does so provided every path has at least four
    bytes after space removal (a shorter path crashes scope selection and
    yields no list), and then each position is resolved independently, a
    failing path contributing the empty string at its position, as the
    positional specification `resolveLabelsSpec` states. -/
theorem label_resolution_amended :
    (∀ (jp : PathEval) (data : JsonDoc) (paths : List String),
      (extractLabels jp data paths).length = paths.length) ∧
    (∀ (jp : PathEval) (childData rootData : JsonDoc) (paths : List String),
      (∀ p ∈ paths, 4 ≤ goLen (replaceAllSpaces p)) →
      extractLabelsWithParentNode jp childData rootData paths =
        some (resolveLabelsSpec jp childData rootData paths) ∧
      (resolveLabelsSpec jp childData rootData paths).length = paths.length) := by
  constructor
  · intro jp data paths
    simp [extractLabels]
  · intro jp childData rootData paths h
    exact ⟨extractLabelsWithParentNode_eq_spec jp childData rootData paths h,
      by simp [resolveLabelsSpec]⟩

/-- C7 witness: the amended statement at the concrete path list
    `["name"]`. -/
theorem label_resolution_amended_witness :
    extractLabelsWithParentNode toyEval (some okElementA) okData ["name"] =
      some (resolveLabelsSpec toyEval (some okElementA) okData ["name"]) ∧
    (resolveLabelsSpec toyEval (some okElementA) okData ["name"]).length = 1 :=
  label_resolution_amended.2 toyEval (some okElementA) okData ["name"] (by decide)

/-!
## Claim C8 — ScalarScrape emits exactly one observation
-/

/-- C8: a ScalarScrape descriptor whose key path extraction succeeds with a
    value the normalizer accepts emits exactly one observation — value the
    normalized match, labels resolved by the one-scope resolver against the
    run's root document — and a ScalarScrape descriptor never contributes
    more than one observation per run. -/
theorem scalar_scrape_single_observation
    (jp : PathEval) (sanitize : String → Except Unit Rat)
    (m : JSONMetric) (data : JsonDoc)
    (htype : m.Type' = ScrapeType.valueScrape) :
    (∀ v q, extractValue jp data m.KeyJSONPath = .ok v → sanitize v = .ok q →
      collectMetric jp sanitize m data =
        ([{ desc := m.Desc, valueType := m.ValueType, value := q,
            labelValues := extractLabels jp data m.LabelsJSONPaths,
            timestamp := none }], false)) ∧
    (collectMetric jp sanitize m data).1.length ≤ 1 := by
  constructor
  · intro v q hv hq
    simp [collectMetric, htype, hv, hq]
  · cases hx : extractValue jp data m.KeyJSONPath with
    | error u => simp [collectMetric, htype, hx]
    | ok v =>
      cases hs : sanitize v with
      | error u => simp [collectMetric, htype, hx, hs]
      | ok q => simp [collectMetric, htype, hx, hs]

/-- C8 witness: the concrete ScalarScrape run emits its single observation
    with the normalized value 7. -/
theorem scalar_scrape_single_observation_witness :
    collectMetric toyEval toySanitize epochMetric epochCollector.Data =
      ([{ desc := MetricDesc.configDesc "example_value",
          valueType := PromValueType.gaugeValue, value := 7,
          labelValues := [], timestamp := none }], false) := by
  have h := (scalar_scrape_single_observation toyEval toySanitize epochMetric
      epochCollector.Data rfl).1 "7" 7 rfl (by decide)
  exact h

end JsonExporter
